import Mathlib

/-!
# Verification of the DataLama façade (src/datalama.py)

A shallow embedding of the only logic original to the repository:

* `needs_reindexing` — the timestamp-based staleness check
  (`DataLama._needs_reindexing`, lines 91–110): it computes the maximum
  modification time over every directory yielded by `os.walk(persistent_dir)`
  via Python's `max(...)` (which raises `ValueError` on an empty sequence),
  then walks `data_dir` and returns `True` at the first regular file whose
  modification time strictly exceeds that maximum, else `False`.
* `DataLama.init` — the constructor's branch (lines 39–51): `if not
  persistent_dir.exists() or self._needs_reindexing(...)` rebuilds
  (load documents, build index, persist), else reloads from storage.
  External collaborator invocations are recorded as a `ProviderCall` list;
  the collaborators themselves are opaque and assumed to succeed.
* `DataLama.query` (lines 76–89) — forwards the message to the query engine,
  appends `round(elapsed, 1)` to the duration log on success, and returns the
  engine's answer unmodified; an engine exception propagates before the
  append executes.
* the accessors `get_load_duration` / `get_query_durations` (lines 64–74).

The filesystem is modelled as a finite tree of nodes (`FSNode`), each a
regular file or a directory with children, every node carrying a
modification timestamp (a rational, standing for the float returned by
`os.path.getmtime`).  A path argument is modelled by its resolution:
`some node` when the path exists, `none` when it does not.  `os.walk` is
called with its default `onerror=None`, which silently ignores the
`OSError` raised when the root is missing, unreadable, or not a directory:
in all those cases the walk yields nothing, so `none` also models an
unreadable root.  Elapsed wall-clock durations (`time.perf_counter`
differences) are inputs from the environment, constrained only to be
non-negative where a claim needs it.
-/

/-- Error values that can propagate out of the embedded code.  `valueError`
is Python's built-in `ValueError` (raised by `max()` on an empty sequence);
the remaining constructors are the documented error taxonomy of the spec
(`NotFoundError`, `AccessError`, `BackendError`, `InvalidArgument`), present
so that claims about those kinds are statable even where the code never
raises them. -/
inductive PyError where
  | valueError
  | notFoundError
  | accessError
  | backendError
  | invalidArgument
deriving DecidableEq, Repr

/-- A node of the modelled filesystem: a regular file or a directory with an
ordered list of children, each node carrying its modification timestamp
(`os.path.getmtime` as an exact rational). -/
inductive FSNode where
  | file (mtime : ℚ)
  | dir (mtime : ℚ) (children : List FSNode)

/-- Whether a node is a directory. -/
def FSNode.isDir : FSNode → Bool
  | .file _ => false
  | .dir _ _ => true

mutual
/-- The modification times of every root yielded by
`os.walk(top)` — `top` itself and each reachable sub-directory, in pre-order.
A regular file or a missing/unreadable root yields nothing (`os.walk`
passes the `OSError` to its default `onerror=None`, discarding it). -/
def walkDirMtimes : FSNode → List ℚ
  | .file _ => []
  | .dir m cs => m :: walkDirMtimesList cs

/-- Directory mtimes contributed by a list of sibling nodes, in order. -/
def walkDirMtimesList : List FSNode → List ℚ
  | [] => []
  | c :: cs => walkDirMtimes c ++ walkDirMtimesList cs
end

/-- The modification times of the regular files that are direct children of a
directory — the `files` component of one `os.walk` triple, in child order. -/
def childFileMtimes : List FSNode → List ℚ
  | [] => []
  | .file m :: cs => m :: childFileMtimes cs
  | .dir _ _ :: cs => childFileMtimes cs

mutual
/-- The modification times of every regular file visited by the loop
`for root, _, files in os.walk(data_dir): for file in files: ...`, in
visitation order: for each directory root, its direct child files, then the
sub-directories recursively.  A file or missing root yields nothing. -/
def walkFileMtimes : FSNode → List ℚ
  | .file _ => []
  | .dir _ cs => childFileMtimes cs ++ walkFileMtimesList cs

/-- File mtimes contributed by recursing into a list of sibling nodes. -/
def walkFileMtimesList : List FSNode → List ℚ
  | [] => []
  | c :: cs => walkFileMtimes c ++ walkFileMtimesList cs
end

mutual
/-- Spec-side definition, from the claim's words: the modification times of
all regular files under a node, recursively (a file counts under itself). -/
def allFileMtimes : FSNode → List ℚ
  | .file m => [m]
  | .dir _ cs => allFileMtimesList cs

/-- `allFileMtimes` over a list of sibling nodes. -/
def allFileMtimesList : List FSNode → List ℚ
  | [] => []
  | c :: cs => allFileMtimes c ++ allFileMtimesList cs
end

/-- Resolve an optional root for a walk: a missing path yields nothing. -/
def walkDirMtimesOpt : Option FSNode → List ℚ
  | none => []
  | some n => walkDirMtimes n

/-- Resolve an optional root for the file walk: a missing path yields
nothing. -/
def walkFileMtimesOpt : Option FSNode → List ℚ
  | none => []
  | some n => walkFileMtimes n

/-- Python's `max(iterable)`: the maximum of a non-empty sequence, a
`ValueError` on an empty one. -/
def pyMax : List ℚ → Except PyError ℚ
  | [] => .error .valueError
  | t :: ts => .ok (ts.foldl max t)

/-- The maximum directory mtime under a directory node, as `pyMax` computes
it on the walk output. -/
def cacheTime : FSNode → ℚ
  | .file m => m
  | .dir m cs => (walkDirMtimesList cs).foldl max m

/-- The source-side loop of `_needs_reindexing`: return `true` at the first
file mtime strictly greater than `persistent_time`, else `false` after the
whole list (the short-circuiting `return True` inside the walk). -/
def scanFiles (persistent_time : ℚ) : List ℚ → Bool
  | [] => false
  | t :: ts => if persistent_time < t then true else scanFiles persistent_time ts

/-- `DataLama._needs_reindexing(persistent_dir, data_dir)`:
`persistent_time = max(os.path.getmtime(root) for root, _, _ in
os.walk(persistent_dir))`, then walk `data_dir` and return `True` at the
first file newer than `persistent_time`.  Each path argument is given by its
resolution in the filesystem (`none` = missing/unreadable). -/
def needs_reindexing (persistent_dir data_dir : Option FSNode) : Except PyError Bool :=
  match pyMax (walkDirMtimesOpt persistent_dir) with
  | .error e => .error e
  | .ok persistent_time => .ok (scanFiles persistent_time (walkFileMtimesOpt data_dir))

/-- One invocation of an external collaborator during construction. -/
inductive ProviderCall where
  | loadDocuments
  | buildIndex
  | persistIndex
  | loadIndex
deriving DecidableEq, Repr

/-- The collaborator sequence of the rebuild path:
`SimpleDirectoryReader(path_to_data).load_data()`,
`VectorStoreIndex.from_documents(documents)`,
`index.storage_context.persist(persistent_dir)`. -/
def rebuildCalls : List ProviderCall := [.loadDocuments, .buildIndex, .persistIndex]

/-- The collaborator sequence of the reload path:
`load_index_from_storage(StorageContext.from_defaults(...))`. -/
def reloadCalls : List ProviderCall := [.loadIndex]

/-- The session state a `DataLama` instance owns: `self._load_duration` and
`self._query_durations`. -/
structure DataLamaState where
  loadDuration : ℚ
  queryDurations : List ℚ
deriving DecidableEq, Repr

/-- `DataLama.__init__`: `if not persistent_dir.exists() or
self._needs_reindexing(persistent_dir, path_to_data)` take the rebuild path,
else the reload path; Python's `or` short-circuits, so the staleness check
runs only when `persistent_dir.exists()` is true (`some` node of either
kind).  Records the collaborator calls of the path taken, the measured load
duration `loadElapsed`, and the empty duration log. -/
def DataLama.init (persistent_dir data_dir : Option FSNode) (loadElapsed : ℚ) :
    Except PyError (List ProviderCall × DataLamaState) :=
  match persistent_dir with
  | none => .ok (rebuildCalls, ⟨loadElapsed, []⟩)
  | some p =>
    match needs_reindexing (some p) data_dir with
    | .error e => .error e
    | .ok true => .ok (rebuildCalls, ⟨loadElapsed, []⟩)
    | .ok false => .ok (reloadCalls, ⟨loadElapsed, []⟩)

/-- Round-half-to-even on an exact rational, Python's `round` to the nearest
integer. -/
def pyRoundHalfEven (q : ℚ) : ℤ :=
  if q - ⌊q⌋ < 1/2 then ⌊q⌋
  else if (1 : ℚ)/2 < q - ⌊q⌋ then ⌊q⌋ + 1
  else if ⌊q⌋ % 2 = 0 then ⌊q⌋ else ⌊q⌋ + 1

/-- Python's `round(q, 1)`: round to one decimal place, half to even. -/
def pyRound1 (q : ℚ) : ℚ := (pyRoundHalfEven (q * 10) : ℚ) / 10

/-- `DataLama.query(msg)`: forward `msg` to the query engine; on success
append `round(elapsed, 1)` to `self._query_durations` and return the
engine's response unmodified; on an engine exception the append is never
reached and the state is unchanged.  The engine and the measured elapsed
time are inputs from the environment. -/
def DataLama.query (engine : String → Except PyError String) (msg : String)
    (elapsed : ℚ) (st : DataLamaState) : Except PyError String × DataLamaState :=
  match engine msg with
  | .error e => (.error e, st)
  | .ok response =>
    (.ok response, { st with queryDurations := st.queryDurations ++ [pyRound1 elapsed] })

/-- `DataLama.get_load_duration`: returns `self._load_duration`. -/
def DataLama.get_load_duration (st : DataLamaState) : ℚ := st.loadDuration

/-- `DataLama.get_query_durations`: returns `tuple(self._query_durations)`,
a snapshot of the log's contents in order. -/
def DataLama.get_query_durations (st : DataLamaState) : List ℚ := st.queryDurations

/-- Run a sequence of `query` calls, each given by its message and its
measured elapsed time, threading the session state. -/
def runQueries (engine : String → Except PyError String) :
    List (String × ℚ) → DataLamaState → DataLamaState
  | [], st => st
  | (m, e) :: rest, st => runQueries engine rest (DataLama.query engine m e st).2

/-! ## Helper lemmas -/

/-- The seed is bounded by a `foldl max`. -/
theorem le_foldl_max (l : List ℚ) (a : ℚ) : a ≤ l.foldl max a := by
  induction l generalizing a with
  | nil => exact le_refl a
  | cons x xs ih => exact le_trans (le_max_left a x) (ih (max a x))

/-- Every element of the list is bounded by a `foldl max`. -/
theorem mem_le_foldl_max (l : List ℚ) (a : ℚ) : ∀ x ∈ l, x ≤ l.foldl max a := by
  induction l generalizing a with
  | nil => intro x hx; cases hx
  | cons y ys ih =>
    intro x hx
    rcases List.mem_cons.mp hx with h | h
    · subst h; exact le_trans (le_max_right a x) (le_foldl_max ys (max a x))
    · exact ih (max a y) x h

/-- A `foldl max` is the seed or an element of the list. -/
theorem foldl_max_mem (l : List ℚ) (a : ℚ) : l.foldl max a = a ∨ l.foldl max a ∈ l := by
  induction l generalizing a with
  | nil => exact Or.inl rfl
  | cons x xs ih =>
    rcases ih (max a x) with h | h
    · rcases max_cases a x with ⟨hm, _⟩ | ⟨hm, _⟩
      · exact Or.inl (by rw [List.foldl_cons, h, hm])
      · exact Or.inr (by rw [List.foldl_cons, h, hm]; exact List.mem_cons_self x xs)
    · exact Or.inr (List.mem_cons_of_mem x h)

/-- The short-circuiting scan is the boolean "any newer" over the list. -/
theorem scanFiles_eq_any (pt : ℚ) (l : List ℚ) :
    scanFiles pt l = l.any (fun t => decide (pt < t)) := by
  induction l with
  | nil => rfl
  | cons t ts ih =>
    by_cases h : pt < t
    · simp [scanFiles, h]
    · simp [scanFiles, h, ih]

/-- Membership in the file mtimes the `os.walk` loop visits agrees with
membership in the spec-side recursive file collection, over sibling lists. -/
theorem mem_allFileMtimesList : ∀ cs : List FSNode, ∀ t : ℚ,
    t ∈ allFileMtimesList cs ↔ t ∈ childFileMtimes cs ∨ t ∈ walkFileMtimesList cs
  | [], t => by
    simp [allFileMtimesList, childFileMtimes, walkFileMtimesList]
  | .file m :: cs, t => by
    have ih := mem_allFileMtimesList cs t
    simp only [allFileMtimesList, childFileMtimes, walkFileMtimesList, allFileMtimes,
      walkFileMtimes, List.mem_append, List.mem_cons, List.not_mem_nil, false_or] at *
    tauto
  | .dir m cc :: cs, t => by
    have ihc := mem_allFileMtimesList cc t
    have ih := mem_allFileMtimesList cs t
    simp only [allFileMtimesList, childFileMtimes, walkFileMtimesList, allFileMtimes,
      walkFileMtimes, List.mem_append] at *
    tauto
termination_by cs => sizeOf cs

/-- For a directory root, the files visited by the walk are exactly the
files under the root, up to membership. -/
theorem mem_walkFileMtimes_dir (m t : ℚ) (cs : List FSNode) :
    t ∈ walkFileMtimes (.dir m cs) ↔ t ∈ allFileMtimes (.dir m cs) := by
  simp only [walkFileMtimes, allFileMtimes, List.mem_append]
  exact (mem_allFileMtimesList cs t).symm

/-- `pyRound1` sends non-negative rationals to non-negative rationals. -/
theorem pyRound1_nonneg (q : ℚ) (hq : 0 ≤ q) : 0 ≤ pyRound1 q := by
  have h10 : (0 : ℚ) ≤ q * 10 := by positivity
  have hfl : (0 : ℤ) ≤ ⌊q * 10⌋ := Int.le_floor.mpr (by exact_mod_cast h10)
  have hre : (0 : ℤ) ≤ pyRoundHalfEven (q * 10) := by
    unfold pyRoundHalfEven
    split
    · exact hfl
    · split
      · omega
      · split
        · exact hfl
        · omega
  unfold pyRound1
  have : (0 : ℚ) ≤ (pyRoundHalfEven (q * 10) : ℚ) := by exact_mod_cast hre
  positivity

/-- `runQueries` never changes the load duration. -/
theorem runQueries_loadDuration (engine : String → Except PyError String) :
    ∀ (steps : List (String × ℚ)) (st : DataLamaState),
      (runQueries engine steps st).loadDuration = st.loadDuration := by
  intro steps
  induction steps with
  | nil => intro st; rfl
  | cons s rest ih =>
    intro st
    rw [runQueries, ih]
    unfold DataLama.query
    cases engine s.1 <;> rfl

/-- The state after one `query` call: unchanged on an engine error, the log
extended by one rounded duration on success. -/
theorem query_state (engine : String → Except PyError String) (msg : String)
    (elapsed : ℚ) (st : DataLamaState) :
    (DataLama.query engine msg elapsed st).2 =
      match engine msg with
      | .error _ => st
      | .ok _ => { st with queryDurations := st.queryDurations ++ [pyRound1 elapsed] } := by
  unfold DataLama.query
  cases engine msg <;> rfl

/-- `runQueries` only appends to the duration log. -/
theorem runQueries_append_only (engine : String → Except PyError String) :
    ∀ (steps : List (String × ℚ)) (st : DataLamaState),
      ∃ tail, (runQueries engine steps st).queryDurations = st.queryDurations ++ tail := by
  intro steps
  induction steps with
  | nil => intro st; exact ⟨[], by simp [runQueries]⟩
  | cons s rest ih =>
    intro st
    rw [runQueries, query_state]
    cases h : engine s.1 with
    | error e => simpa using ih st
    | ok r =>
      obtain ⟨tail, htail⟩ := ih { st with queryDurations := st.queryDurations ++ [pyRound1 s.2] }
      exact ⟨[pyRound1 s.2] ++ tail, by rw [htail]; simp⟩

/-- When every step's engine call succeeds, `runQueries` appends exactly the
rounded elapsed times, in call order. -/
theorem runQueries_all_ok (engine : String → Except PyError String) :
    ∀ (steps : List (String × ℚ)) (st : DataLamaState),
      (∀ s ∈ steps, ∃ a, engine s.1 = .ok a) →
      (runQueries engine steps st).queryDurations =
        st.queryDurations ++ steps.map (fun s => pyRound1 s.2) := by
  intro steps
  induction steps with
  | nil => intro st _; simp [runQueries]
  | cons s rest ih =>
    intro st hok
    obtain ⟨a, ha⟩ := hok s (List.mem_cons_self s rest)
    rw [runQueries]
    rw [ih _ (fun x hx => hok x (List.mem_cons_of_mem s hx))]
    unfold DataLama.query
    rw [ha]
    simp

/-! ## Claim theorems -/

/-- C1: for every existing cache directory and readable source directory,
the staleness check returns true iff at least one regular file under the
source directory (recursively) has a modification timestamp strictly
greater than `cache_time`, where `cache_time` is the maximum modification
timestamp among all directories reachable under the cache directory
(recursively); it short-circuits and returns true on the first such file,
and an empty source directory yields false. -/
theorem needs_rebuild_iff_newer_file (p d : FSNode)
    (hp : p.isDir = true) (hd : d.isDir = true) :
    (∃ b : Bool, needs_reindexing (some p) (some d) = .ok b ∧
      (b = true ↔ ∃ t ∈ allFileMtimes d, cacheTime p < t)) ∧
    (cacheTime p ∈ walkDirMtimes p ∧ ∀ t ∈ walkDirMtimes p, t ≤ cacheTime p) ∧
    (allFileMtimes d = [] → needs_reindexing (some p) (some d) = .ok false) ∧
    (∀ ct t : ℚ, ∀ ts : List ℚ, ct < t → scanFiles ct (t :: ts) = true) := by
  obtain ⟨mp, csp, rfl⟩ : ∃ mp csp, p = .dir mp csp := by
    cases p with
    | file m => simp [FSNode.isDir] at hp
    | dir m cs => exact ⟨m, cs, rfl⟩
  obtain ⟨md, csd, rfl⟩ : ∃ md csd, d = .dir md csd := by
    cases d with
    | file m => simp [FSNode.isDir] at hd
    | dir m cs => exact ⟨m, cs, rfl⟩
  have key : needs_reindexing (some (.dir mp csp)) (some (.dir md csd)) =
      .ok (scanFiles (cacheTime (.dir mp csp)) (walkFileMtimes (.dir md csd))) := rfl
  have hiff : scanFiles (cacheTime (.dir mp csp)) (walkFileMtimes (.dir md csd)) = true ↔
      ∃ t ∈ allFileMtimes (.dir md csd), cacheTime (.dir mp csp) < t := by
    rw [scanFiles_eq_any, List.any_eq_true]
    constructor
    · rintro ⟨t, ht, hlt⟩
      exact ⟨t, (mem_walkFileMtimes_dir md t csd).mp ht, of_decide_eq_true hlt⟩
    · rintro ⟨t, ht, hlt⟩
      exact ⟨t, (mem_walkFileMtimes_dir md t csd).mpr ht, decide_eq_true hlt⟩
  refine ⟨⟨_, key, hiff⟩, ⟨?_, ?_⟩, ?_, ?_⟩
  · show (walkDirMtimesList csp).foldl max mp ∈ walkDirMtimes (.dir mp csp)
    rw [walkDirMtimes]
    rcases foldl_max_mem (walkDirMtimesList csp) mp with h | h
    · rw [h]; exact List.mem_cons_self _ _
    · exact List.mem_cons_of_mem _ h
  · intro t ht
    rw [walkDirMtimes] at ht
    rcases List.mem_cons.mp ht with h | h
    · subst h; exact le_foldl_max _ _
    · exact mem_le_foldl_max _ _ t h
  · intro hempty
    rw [key]
    have : scanFiles (cacheTime (.dir mp csp)) (walkFileMtimes (.dir md csd)) ≠ true := by
      intro hTrue
      obtain ⟨t, ht, -⟩ := hiff.mp hTrue
      rw [hempty] at ht
      exact (List.not_mem_nil t) ht
    simp only [Bool.not_eq_true] at this
    rw [this]
  · intro ct t ts hlt
    simp [scanFiles, hlt]

/-- Witness for C1: a cache directory with timestamp 5 and no children, a
source directory holding one file with timestamp 7 — the check reports a
rebuild. -/
theorem needs_rebuild_iff_newer_file_witness :
    needs_reindexing (some (FSNode.dir 5 [])) (some (FSNode.dir 0 [FSNode.file 7])) =
      .ok true := by
  obtain ⟨⟨b, hb, hiff⟩, -, -, -⟩ :=
    needs_rebuild_iff_newer_file (.dir 5 []) (.dir 0 [.file 7]) rfl rfl
  have hbt : b = true := hiff.mpr ⟨7, by decide, by decide⟩
  rw [hb, hbt]

/-- C2: construction takes the rebuild path (load documents, build, persist)
exactly when the cache directory is absent or the staleness check reports
stale, the reload path (load the persisted index) otherwise, a staleness
error propagates, and the staleness check is never invoked when the cache
directory is absent — the check always raises on an absent cache directory,
yet construction still succeeds with the rebuild path. -/
theorem init_rebuild_or_reload (pd dd : Option FSNode) (le : ℚ) :
    (pd = none →
      DataLama.init pd dd le = .ok (rebuildCalls, ⟨le, []⟩) ∧
      needs_reindexing pd dd = .error .valueError) ∧
    (∀ p, pd = some p → needs_reindexing pd dd = .ok true →
      DataLama.init pd dd le = .ok (rebuildCalls, ⟨le, []⟩)) ∧
    (∀ p, pd = some p → needs_reindexing pd dd = .ok false →
      DataLama.init pd dd le = .ok (reloadCalls, ⟨le, []⟩)) ∧
    (∀ p e, pd = some p → needs_reindexing pd dd = .error e →
      DataLama.init pd dd le = .error e) ∧
    rebuildCalls ≠ reloadCalls := by
  refine ⟨?_, ?_, ?_, ?_, by decide⟩
  · rintro rfl
    exact ⟨rfl, rfl⟩
  · rintro p rfl hres
    simp only [DataLama.init, hres]
  · rintro p rfl hres
    simp only [DataLama.init, hres]
  · rintro p e rfl hres
    simp only [DataLama.init, hres]

/-- Witness for C2: an existing cache directory (timestamp 0) with a source
file of timestamp 5 is stale, so construction rebuilds; an absent cache
directory rebuilds without consulting the (always-raising) staleness
check. -/
theorem init_rebuild_or_reload_witness :
    DataLama.init (some (FSNode.dir 0 [])) (some (FSNode.dir 1 [FSNode.file 5])) 3 =
      .ok (rebuildCalls, ⟨3, []⟩) ∧
    DataLama.init none (some (FSNode.file 4)) 2 = .ok (rebuildCalls, ⟨2, []⟩) ∧
    needs_reindexing none (some (FSNode.file 4)) = .error .valueError := by
  refine ⟨?_, ?_, ?_⟩
  · exact (init_rebuild_or_reload (some (.dir 0 []))
      (some (.dir 1 [.file 5])) 3).2.1 _ rfl rfl
  · exact ((init_rebuild_or_reload none (some (.file 4)) 2).1 rfl).1
  · exact ((init_rebuild_or_reload none (some (.file 4)) 2).1 rfl).2

/-- C3 counterexample: with an existing cache directory and an absent
source directory, the staleness check does not fail — `os.walk` discards
the `OSError` under its default `onerror=None`, the file loop runs over
nothing, the check returns false, and construction takes the reload
path. -/
theorem source_missing_no_error :
    needs_reindexing (some (FSNode.dir 0 [])) none = .ok false ∧
    DataLama.init (some (FSNode.dir 0 [])) none 1 = .ok (reloadCalls, ⟨1, []⟩) ∧
    reloadCalls ≠ rebuildCalls :=
  ⟨rfl, rfl, by decide⟩

/-- C3 amended: for every existing cache directory, when the source
directory does not exist or is unreadable the staleness check silently
returns false (its walk yields no files) and construction takes the reload
path; no error propagates. -/
theorem source_missing_reload (p : FSNode) (hp : p.isDir = true) (le : ℚ) :
    needs_reindexing (some p) none = .ok false ∧
    DataLama.init (some p) none le = .ok (reloadCalls, ⟨le, []⟩) := by
  obtain ⟨m, cs, rfl⟩ : ∃ m cs, p = .dir m cs := by
    cases p with
    | file m => simp [FSNode.isDir] at hp
    | dir m cs => exact ⟨m, cs, rfl⟩
  exact ⟨rfl, rfl⟩

/-- Witness for the amended C3: a cache directory with a subdirectory,
source path missing — reload. -/
theorem source_missing_reload_witness :
    needs_reindexing (some (FSNode.dir 2 [FSNode.dir 3 []])) none = .ok false ∧
    DataLama.init (some (FSNode.dir 2 [FSNode.dir 3 []])) none 1 =
      .ok (reloadCalls, ⟨1, []⟩) :=
  source_missing_reload (.dir 2 [.dir 3 []]) rfl 1

/-- C4 counterexample: `query` applied to the empty question does not fail
with an `InvalidArgument`-kind error; it forwards the empty string to the
query engine and returns the engine's answer. -/
theorem empty_query_not_rejected :
    (DataLama.query (fun _ => .ok "Sauron") "" 2 ⟨1, []⟩).1 = .ok "Sauron" ∧
    (DataLama.query (fun _ => .ok "Sauron") "" 2 ⟨1, []⟩).1 ≠ .error .invalidArgument := by
  refine ⟨rfl, ?_⟩
  intro h
  rw [show (DataLama.query (fun _ => .ok "Sauron") "" 2 ⟨1, []⟩).1 =
    (.ok "Sauron" : Except PyError String) from rfl] at h
  cases h

/-- C4 amended: `query` performs no validation on the question; an empty
question is forwarded to the query engine like any other, its answer is
returned, and one duration entry is appended. -/
theorem empty_query_forwarded (engine : String → Except PyError String)
    (elapsed : ℚ) (st : DataLamaState) (ans : String)
    (h : engine "" = .ok ans) :
    (DataLama.query engine "" elapsed st).1 = .ok ans ∧
    (DataLama.query engine "" elapsed st).2.queryDurations =
      st.queryDurations ++ [pyRound1 elapsed] := by
  simp [DataLama.query, h]

/-- Witness for the amended C4: a mock engine answers the empty question
and the duration log grows by one entry. -/
theorem empty_query_forwarded_witness :
    (DataLama.query (fun _ => .ok "Sauron") "" 2 ⟨1, []⟩).1 = .ok "Sauron" ∧
    (DataLama.query (fun _ => .ok "Sauron") "" 2 ⟨1, []⟩).2.queryDurations =
      [] ++ [pyRound1 2] :=
  empty_query_forwarded (fun _ => .ok "Sauron") 2 ⟨1, []⟩ "Sauron" rfl

/-- C5: for every non-empty question and every answer the engine returns
for it, `query` returns that answer unmodified and appends exactly one
entry — the elapsed wall-clock time rounded to one decimal place — to the
query-duration log. -/
theorem query_forwards_and_logs (engine : String → Except PyError String)
    (msg : String) (elapsed : ℚ) (st : DataLamaState) (ans : String)
    (_hmsg : msg ≠ "") (h : engine msg = .ok ans) :
    (DataLama.query engine msg elapsed st).1 = .ok ans ∧
    (DataLama.query engine msg elapsed st).2.queryDurations =
      st.queryDurations ++ [pyRound1 elapsed] := by
  simp [DataLama.query, h]

/-- Witness for C5: the spec's Scenario 5, a mock engine answering
"Sauron" — the façade returns "Sauron" and appends one duration entry. -/
theorem query_forwards_and_logs_witness :
    (DataLama.query (fun _ => .ok "Sauron") "Who owns the one ring?" 2 ⟨1, []⟩).1 =
      .ok "Sauron" ∧
    (DataLama.query (fun _ => .ok "Sauron") "Who owns the one ring?" 2 ⟨1, []⟩).2.queryDurations =
      [] ++ [pyRound1 2] :=
  query_forwards_and_logs (fun _ => .ok "Sauron") "Who owns the one ring?" 2 ⟨1, []⟩
    "Sauron" (by decide) rfl

/-- C6: after `n` successful calls to `query` the query-duration log
contains exactly `n` entries, in call order, each a non-negative number,
and the log is append-only — any run of `query` calls only extends it. -/
theorem query_log_growth (engine : String → Except PyError String)
    (steps : List (String × ℚ)) (ld : ℚ)
    (hok : ∀ s ∈ steps, ∃ a, engine s.1 = .ok a)
    (hnn : ∀ s ∈ steps, 0 ≤ s.2) :
    (runQueries engine steps ⟨ld, []⟩).queryDurations =
      steps.map (fun s => pyRound1 s.2) ∧
    (runQueries engine steps ⟨ld, []⟩).queryDurations.length = steps.length ∧
    (∀ t ∈ (runQueries engine steps ⟨ld, []⟩).queryDurations, 0 ≤ t) ∧
    (∀ st : DataLamaState, ∃ tail,
      (runQueries engine steps st).queryDurations = st.queryDurations ++ tail) := by
  have hmap : (runQueries engine steps ⟨ld, []⟩).queryDurations =
      steps.map (fun s => pyRound1 s.2) := by
    rw [runQueries_all_ok engine steps ⟨ld, []⟩ hok]
    simp
  refine ⟨hmap, by rw [hmap]; simp, ?_, fun st => runQueries_append_only engine steps st⟩
  intro t ht
  rw [hmap] at ht
  obtain ⟨s, hs, rfl⟩ := List.mem_map.mp ht
  exact pyRound1_nonneg s.2 (hnn s hs)

/-- Witness for C6: two successful queries with elapsed times 2 and 0 —
the log holds exactly their rounded durations, in order, both
non-negative. -/
theorem query_log_growth_witness :
    (runQueries (fun _ => .ok "a") [("q", 2), ("r", 0)] ⟨1, []⟩).queryDurations =
      [("q", (2 : ℚ)), ("r", 0)].map (fun s => pyRound1 s.2) ∧
    (runQueries (fun _ => .ok "a") [("q", 2), ("r", 0)] ⟨1, []⟩).queryDurations.length = 2 ∧
    (∀ t ∈ (runQueries (fun _ => .ok "a") [("q", 2), ("r", 0)] ⟨1, []⟩).queryDurations,
      0 ≤ t) := by
  obtain ⟨h1, h2, h3, -⟩ := query_log_growth (fun _ => .ok "a") [("q", 2), ("r", 0)] 1
    (fun s _ => ⟨"a", rfl⟩) (by decide)
  exact ⟨h1, h2, h3⟩

/-- C7: the load duration is set exactly once, at construction, to the
measured load time; no `query` call changes it, and `get_load_duration`
returns that single recorded value after any run of queries. -/
theorem load_duration_set_once (pd dd : Option FSNode) (le : ℚ)
    (calls : List ProviderCall) (st : DataLamaState)
    (hinit : DataLama.init pd dd le = .ok (calls, st)) :
    st.loadDuration = le ∧
    (∀ engine msg elapsed,
      (DataLama.query engine msg elapsed st).2.loadDuration = st.loadDuration) ∧
    (∀ engine steps, DataLama.get_load_duration (runQueries engine steps st) = le) := by
  have hst : st.loadDuration = le := by
    cases pd with
    | none =>
      simp only [DataLama.init, Except.ok.injEq, Prod.mk.injEq] at hinit
      rw [← hinit.2]
    | some p =>
      simp only [DataLama.init] at hinit
      cases hres : needs_reindexing (some p) dd with
      | error e => rw [hres] at hinit; cases hinit
      | ok b =>
        rw [hres] at hinit
        cases b <;> simp only [Except.ok.injEq, Prod.mk.injEq] at hinit <;> rw [← hinit.2]
  refine ⟨hst, ?_, ?_⟩
  · intro engine msg elapsed
    rw [query_state]
    cases engine msg <;> rfl
  · intro engine steps
    show (runQueries engine steps st).loadDuration = le
    rw [runQueries_loadDuration, hst]

/-- Witness for C7: construction with an absent cache records load
duration 5, and it is still 5 after a query. -/
theorem load_duration_set_once_witness :
    (⟨5, []⟩ : DataLamaState).loadDuration = 5 ∧
    DataLama.get_load_duration
      (runQueries (fun _ => .ok "x") [("q", 1)] ⟨5, []⟩) = 5 := by
  have h := load_duration_set_once none none 5 rebuildCalls ⟨5, []⟩ rfl
  exact ⟨h.1, h.2.2 (fun _ => .ok "x") [("q", 1)]⟩

/-- C8: `get_query_durations` returns a snapshot of the query-duration log
as it is at call time — the returned sequence equals the log's contents in
order — and a later `query` call only produces a state whose log extends
that snapshot; the snapshot itself, a pure value (the code copies the list
into a tuple), is unchanged.  -/
theorem query_durations_snapshot (st : DataLamaState)
    (engine : String → Except PyError String) (msg : String) (elapsed : ℚ) :
    DataLama.get_query_durations st = st.queryDurations ∧
    ∃ tail, DataLama.get_query_durations (DataLama.query engine msg elapsed st).2 =
      DataLama.get_query_durations st ++ tail := by
  refine ⟨rfl, ?_⟩
  rw [show DataLama.get_query_durations (DataLama.query engine msg elapsed st).2 =
    (DataLama.query engine msg elapsed st).2.queryDurations from rfl, query_state]
  cases engine msg with
  | error e => exact ⟨[], by simp [DataLama.get_query_durations]⟩
  | ok r => exact ⟨[pyRound1 elapsed], rfl⟩

/-- C9: when the query engine raises, the error propagates to the caller
and the session state — in particular the query-duration log — is
unchanged: no duration entry is appended for a failed query. -/
theorem failed_query_propagates (engine : String → Except PyError String)
    (msg : String) (elapsed : ℚ) (st : DataLamaState) (e : PyError)
    (h : engine msg = .error e) :
    DataLama.query engine msg elapsed st = (.error e, st) := by
  simp [DataLama.query, h]

/-- Witness for C9: a backend error on a query leaves the one-entry log
exactly as it was. -/
theorem failed_query_propagates_witness :
    DataLama.query (fun _ => .error .backendError) "q" 1 ⟨1, [2]⟩ =
      (.error .backendError, ⟨1, [2]⟩) :=
  failed_query_propagates (fun _ => .error .backendError) "q" 1 ⟨1, [2]⟩ .backendError rfl

/-- C10: a cache path that exists but is a regular file passes the
`persistent_dir.exists()` test, so construction invokes the staleness
check; `os.walk` over a non-directory yields nothing, and Python's `max()`
over the resulting empty sequence raises a bare `ValueError` — not any
error kind of the documented taxonomy — which escapes from the public
constructor. -/
theorem cache_file_value_error (m : ℚ) (dd : Option FSNode) (le : ℚ) :
    (FSNode.file m).isDir = false ∧
    walkDirMtimes (FSNode.file m) = [] ∧
    needs_reindexing (some (FSNode.file m)) dd = .error .valueError ∧
    DataLama.init (some (FSNode.file m)) dd le = .error .valueError ∧
    (PyError.valueError ≠ .notFoundError ∧ PyError.valueError ≠ .accessError ∧
      PyError.valueError ≠ .backendError ∧ PyError.valueError ≠ .invalidArgument) :=
  ⟨rfl, rfl, rfl, rfl, by decide⟩
